import Mathlib

/-!
Verification development for the download queue manager
(`src/python/download_queue_manager.py`).

The Python module implements a bounded-concurrency, priority-ordered job
queue: a `DownloadQueueManager` holding a `queue.PriorityQueue` of pending
tasks and three dictionaries (`active_downloads`, `completed_downloads`,
`failed_downloads`), with operations `add_download`, `_process_queue`,
`_start_download`, `_handle_download_completion`, `cancel_download`,
`retry_download`, `get_download_status`, `get_all_downloads`,
`_check_system_resources` and `update_max_concurrent_downloads`.

This file gives a shallow embedding of that state and those operations:

* Python dicts become association lists `List (String × DownloadTask)`
  with dict-faithful insert (update-in-place for an existing key, append
  for a new one) and remove.
* The `queue.PriorityQueue` becomes a `List` of `(key, task)` entries
  where `put` appends and `get` removes a minimal entry under the
  lexicographic order on keys `(5 - priority.value, created_at)` —
  exactly the keys the Python code builds.
* `time.time()` timestamps become abstract `Nat` sequence values, floats
  (progress, thresholds, sampled percentages) become `ℚ`.
* Threading, the lock, the thread-pool executor and the callback lists
  are not part of the state: every modelled operation is the body of one
  `with self.download_lock:` critical section, so the interleaving
  semantics is captured by the step relation `QMStep` below.
* The external job executor (`_execute_download` / yt-dlp) is modelled by
  its outcome only: `none` for success, `some msg` for a raised
  exception, matching how `_handle_download_completion` inspects
  `future.exception()`.
-/

namespace CamelotQueue



/-- Download priority levels (`DownloadPriority`, lines 24-29). -/
inductive DownloadPriority where
  | LOW
  | NORMAL
  | HIGH
  | URGENT
deriving DecidableEq, Repr

/-- `DownloadPriority` enum values: LOW=1, NORMAL=2, HIGH=3, URGENT=4. -/
def DownloadPriority.value : DownloadPriority → Nat
  | .LOW => 1
  | .NORMAL => 2
  | .HIGH => 3
  | .URGENT => 4

/-- Download status states (`DownloadStatus`, lines 31-41). -/
inductive DownloadStatus where
  | QUEUED
  | DOWNLOADING
  | CONVERTING
  | METADATA
  | ANALYZING
  | COMPLETED
  | FAILED
  | CANCELLED
  | PAUSED
deriving DecidableEq, Repr

/-- A download task (`DownloadTask` dataclass, lines 43-69).  Timestamps are
abstract `Nat` sequence values; float fields are `ℚ`.  The free-form
`metadata` dict is omitted (never read by the queue logic). -/
structure DownloadTask where
  id : String
  url : String
  title : String
  artist : String
  album : Option String
  download_path : String
  priority : DownloadPriority
  status : DownloadStatus
  progress : ℚ
  stage : String
  message : String
  file_size : Nat
  downloaded_size : Nat
  start_time : Option Nat
  end_time : Option Nat
  error : Option String
  retry_count : Nat
  max_retries : Nat
  can_cancel : Bool
  can_retry : Bool
  quality : String
  format : String
  created_at : Nat
deriving DecidableEq, Repr

/-- A fresh `DownloadTask` with the dataclass defaults (lines 50-69): only
id, url, title, artist, priority and the creation timestamp vary. -/
def mkTask (id url title artist : String) (priority : DownloadPriority)
    (created_at : Nat) : DownloadTask :=
  { id := id
    url := url
    title := title
    artist := artist
    album := none
    download_path := ""
    priority := priority
    status := DownloadStatus.QUEUED
    progress := 0
    stage := "queued"
    message := "Added to download queue"
    file_size := 0
    downloaded_size := 0
    start_time := none
    end_time := none
    error := none
    retry_count := 0
    max_retries := 3
    can_cancel := true
    can_retry := false
    quality := "320kbps"
    format := "mp3"
    created_at := created_at }

/-- An entry of the priority queue: the key the Python code builds
(`(5 - task.priority.value, task.created_at)`) together with the task. -/
abbrev QEntry := (Nat × Nat) × DownloadTask

/-- Lexicographic comparison on priority-queue keys, as Python compares the
tuples `(5 - priority.value, created_at)` in its min-heap. -/
def keyLe (a b : Nat × Nat) : Bool :=
  decide (a.1 < b.1) || (decide (a.1 = b.1) && decide (a.2 ≤ b.2))

/-- `PriorityQueue.get` on the embedded queue: remove and return a minimal
entry (the heap property of `queue.PriorityQueue`).  Among entries with
equal keys the leftmost is taken. -/
def popMin : List QEntry → Option (QEntry × List QEntry)
  | [] => none
  | e :: es =>
    match popMin es with
    | none => some (e, [])
    | some (m, rest) => if keyLe e.1 m.1 then some (e, es) else some (m, e :: rest)

/-- Draining the priority queue, structurally on a fuel bound: the
sequence of entries successive `popMin` calls return, i.e. the order in
which the dispatch loop would pop the pending jobs if no new job were
pushed. -/
def drainAux : Nat → List QEntry → List QEntry
  | 0, _ => []
  | Nat.succ n, q =>
    match popMin q with
    | none => []
    | some p => p.1 :: drainAux n p.2

/-- Draining the whole queue: `q.length` pops suffice. -/
def drainQueue (q : List QEntry) : List QEntry :=
  drainAux q.length q

/-- The key `add_download` computes for a task (line 173):
`(5 - task.priority.value, task.created_at)`. -/
def priority_value (task : DownloadTask) : Nat × Nat :=
  (5 - task.priority.value, task.created_at)

/-- Python-dict association lists, lookup `d[k]` / `k in d`. -/
def dictLookup (d : List (String × DownloadTask)) (k : String) :
    Option DownloadTask :=
  match d with
  | [] => none
  | p :: ps => if p.1 = k then some p.2 else dictLookup ps k

/-- Python-dict assignment `d[k] = v`: overwrite in place when `k` is
present, append otherwise. -/
def dictInsert (d : List (String × DownloadTask)) (k : String)
    (v : DownloadTask) : List (String × DownloadTask) :=
  if (dictLookup d k).isSome then
    d.map (fun p => if p.1 = k then (k, v) else p)
  else d ++ [(k, v)]

/-- Python-dict deletion `del d[k]`. -/
def dictRemove (d : List (String × DownloadTask)) (k : String) :
    List (String × DownloadTask) :=
  d.filter (fun p => decide (p.1 ≠ k))

/-- The `DownloadQueueManager` state (lines 78-98): the pending priority
queue and the three registries, plus the configuration fields the queue
logic reads.  The lock, executor, thread handle and callback lists carry
no queue state and are omitted; `is_running` is kept because
`add_download` sets it via `start()`. -/
structure DownloadQueueManager where
  max_concurrent_downloads : Nat
  max_retries : Nat
  download_queue : List QEntry
  active_downloads : List (String × DownloadTask)
  completed_downloads : List (String × DownloadTask)
  failed_downloads : List (String × DownloadTask)
  cpu_threshold : ℚ
  memory_threshold : ℚ
  disk_threshold : ℚ
  is_running : Bool
deriving DecidableEq, Repr

/-- `DownloadQueueManager.__init__` (lines 78-98): empty collections and
the default thresholds CPU 80.0, memory 80.0, disk 90.0. -/
def DownloadQueueManager.init (max_concurrent_downloads max_retries : Nat) :
    DownloadQueueManager :=
  { max_concurrent_downloads := max_concurrent_downloads
    max_retries := max_retries
    download_queue := []
    active_downloads := []
    completed_downloads := []
    failed_downloads := []
    cpu_threshold := 80
    memory_threshold := 80
    disk_threshold := 90
    is_running := false }

/-- `add_download` (lines 164-184): if the id is already in
`active_downloads`, return it unchanged (early return, line 170);
otherwise push `(priority_value, task)` onto the priority queue and start
the processor if it is not running. -/
def add_download (m : DownloadQueueManager) (task : DownloadTask) :
    DownloadQueueManager × String :=
  if (dictLookup m.active_downloads task.id).isSome then
    (m, task.id)
  else
    let m1 := { m with
      download_queue := m.download_queue ++ [(priority_value task, task)] }
    let m2 := if m1.is_running then m1 else { m1 with is_running := true }
    (m2, task.id)

/-- The task mutations `_start_download` performs (lines 238-241). -/
def startedTask (task : DownloadTask) (now : Nat) : DownloadTask :=
  { task with
    status := DownloadStatus.DOWNLOADING
    start_time := some now
    stage := "initializing"
    message := "Starting download..." }

/-- `_start_download` (lines 235-251): mark the task DOWNLOADING, record
the start time, and insert it into the active registry.  The submission to
the thread pool and the completion callback are modelled by the
`completeStep` of the step relation below. -/
def start_download (m : DownloadQueueManager) (task : DownloadTask)
    (now : Nat) : DownloadQueueManager :=
  let t := startedTask task now
  { m with active_downloads := dictInsert m.active_downloads t.id t }

/-- The mutations `_execute_download` performs on the task object on
success (lines 313-319): the outcome the completion callback observes for
a job whose execution finished without an exception. -/
def execute_download_success (task : DownloadTask) (now size : Nat) :
    DownloadTask :=
  { task with
    status := DownloadStatus.COMPLETED
    stage := "complete"
    message := "Download complete!"
    progress := 100
    end_time := some now
    file_size := size }

/-- The mutations `_execute_download` performs on the task object when the
executor raises (lines 323-329). -/
def execute_download_failure (task : DownloadTask) (msg : String)
    (now : Nat) : DownloadTask :=
  { task with
    status := DownloadStatus.FAILED
    stage := "error"
    message := "Download failed: " ++ msg
    error := some msg
    end_time := some now }

/-- `_handle_download_completion` (lines 439-479): remove the task from
the active registry; on success move it to the completed registry with
status COMPLETED; on executor failure either bump `retry_count` and
re-enqueue (when `retry_count < max_retries`) or move it to the failed
registry with status FAILED.  `exc = none` models
`future.exception() is None`.  The handler body runs with the lock held;
its own `except` branch (lines 474-479) guards against bugs in this very
code and has no counterpart in the functional model. -/
def handle_download_completion (m : DownloadQueueManager)
    (task : DownloadTask) (exc : Option String) : DownloadQueueManager :=
  let m1 := { m with active_downloads := dictRemove m.active_downloads task.id }
  match exc with
  | none =>
    let t := { task with status := DownloadStatus.COMPLETED }
    { m1 with completed_downloads := dictInsert m1.completed_downloads task.id t }
  | some _ =>
    if task.retry_count < task.max_retries then
      let rc := task.retry_count + 1
      let t := { task with
        retry_count := rc
        status := DownloadStatus.QUEUED
        stage := "queued"
        message := "Retrying download (attempt " ++ toString (rc + 1) ++ "/"
          ++ toString (task.max_retries + 1) ++ ")..."
        progress := 0
        error := none }
      { m1 with download_queue :=
          m1.download_queue ++ [((5 - t.priority.value, t.created_at), t)] }
    else
      let t := { task with status := DownloadStatus.FAILED }
      { m1 with failed_downloads := dictInsert m1.failed_downloads task.id t }

/-- The mutations `cancel_download` performs on the shared task object
(lines 486-491).  Because the completion callback closes over the same
object, a later `_handle_download_completion` call for a cancelled job
receives this mutated task. -/
def cancelledTask (t : DownloadTask) : DownloadTask :=
  { t with
    status := DownloadStatus.CANCELLED
    stage := "cancelled"
    message := "Download cancelled"
    can_cancel := false
    can_retry := true }

/-- `cancel_download` (lines 481-501): if the id is active, mutate the
task to CANCELLED and delete it from the active registry, returning true;
otherwise return false — queued downloads are NOT touched (the code only
logs a warning, lines 497-501). -/
def cancel_download (m : DownloadQueueManager) (task_id : String) :
    DownloadQueueManager × Bool :=
  match dictLookup m.active_downloads task_id with
  | some _ =>
    ({ m with active_downloads := dictRemove m.active_downloads task_id }, true)
  | none => (m, false)

/-- `retry_download` (lines 503-527): only for ids in the failed registry;
reset the retry budget and error, delete from the failed registry and
re-enqueue with key `(5 - priority.value, created_at)` — the ORIGINAL
creation timestamp (line 521). -/
def retry_download (m : DownloadQueueManager) (task_id : String) :
    DownloadQueueManager × Bool :=
  match dictLookup m.failed_downloads task_id with
  | some task =>
    let t := { task with
      status := DownloadStatus.QUEUED
      stage := "queued"
      message := "Retrying download..."
      progress := 0
      retry_count := 0
      error := none
      can_retry := false
      can_cancel := true }
    ({ m with
        failed_downloads := dictRemove m.failed_downloads task_id
        download_queue :=
          m.download_queue ++ [((5 - t.priority.value, t.created_at), t)] },
     true)
  | none => (m, false)

/-- `get_download_status` (lines 529-536): search the active, completed
and failed registries in that order; the pending queue is not consulted. -/
def get_download_status (m : DownloadQueueManager) (task_id : String) :
    Option DownloadTask :=
  match dictLookup m.active_downloads task_id with
  | some t => some t
  | none =>
    match dictLookup m.completed_downloads task_id with
    | some t => some t
    | none => dictLookup m.failed_downloads task_id

/-- `dict.update`: fold the right dict into the left with Python-dict
assignment. -/
def dictUpdate (d1 d2 : List (String × DownloadTask)) :
    List (String × DownloadTask) :=
  d2.foldl (fun acc p => dictInsert acc p.1 p.2) d1

/-- `get_all_downloads` (lines 538-545): an empty dict updated with the
active, completed and failed registries in turn; the pending queue is not
included. -/
def get_all_downloads (m : DownloadQueueManager) :
    List (String × DownloadTask) :=
  dictUpdate (dictUpdate (dictUpdate [] m.active_downloads)
    m.completed_downloads) m.failed_downloads

/-- `_check_system_resources` (lines 136-162).  The probes are sequential
and the whole body sits in one `try`: a raised probe exception
(`Except.error`) short-circuits to `true` (fail open, line 162); a sampled
metric above its threshold short-circuits to `false`.  `disk = none`
models the absence of a configured `download_path` attribute (line 152);
`some (Except.ok d)` carries the computed percentage
`used / total * 100`. -/
def check_system_resources (m : DownloadQueueManager)
    (cpu mem : Except Unit ℚ) (disk : Option (Except Unit ℚ)) : Bool :=
  match cpu with
  | .error _ => true
  | .ok c =>
    if c > m.cpu_threshold then false
    else
      match mem with
      | .error _ => true
      | .ok v =>
        if v > m.memory_threshold then false
        else
          match disk with
          | none => true
          | some (.error _) => true
          | some (.ok d) => if d > m.disk_threshold then false else true

/-- `update_max_concurrent_downloads` (lines 571-578): overwrite the cap
and recreate the thread pool.  No active entry is evicted. -/
def update_max_concurrent_downloads (m : DownloadQueueManager)
    (new_max : Nat) : DownloadQueueManager :=
  { m with max_concurrent_downloads := new_max }

def c1taskA : DownloadTask := mkTask "a" "u1" "t1" "x" DownloadPriority.LOW 1

def c1taskB : DownloadTask := mkTask "b" "u2" "t2" "x" DownloadPriority.URGENT 2

def c1taskC : DownloadTask := mkTask "c" "u3" "t3" "x" DownloadPriority.NORMAL 3

def c1taskD : DownloadTask := mkTask "d" "u4" "t4" "x" DownloadPriority.NORMAL 4

/-- Four pending jobs as `add_download` would enqueue them. -/
def c1queue : List QEntry :=
  [(priority_value c1taskA, c1taskA), (priority_value c1taskB, c1taskB),
   (priority_value c1taskC, c1taskC), (priority_value c1taskD, c1taskD)]

def c6task : DownloadTask := mkTask "a" "u" "t" "x" DownloadPriority.NORMAL 1

def c6mgr : DownloadQueueManager :=
  { DownloadQueueManager.init 3 3 with
    active_downloads := [("a", startedTask c6task 5)] }

def c10task : DownloadTask := mkTask "p" "u" "t" "x" DownloadPriority.HIGH 1

def c10mgr : DownloadQueueManager :=
  { DownloadQueueManager.init 3 3 with
    download_queue := [(priority_value c10task, c10task)] }

/-- A fueled run of an ever-failing job: each cycle admits the task
(`_start_download`), executes it with a raised exception
(`_execute_download`, failure branch) and runs
`_handle_download_completion` on the failure; if the handler re-enqueued
the job it is popped and the cycle repeats.  Returns the final manager
state and the number of executor invocations. -/
def simulate_always_failing : Nat → DownloadQueueManager → DownloadTask →
    String → Nat → DownloadQueueManager × Nat
  | 0, m, _, _, _ => (m, 0)
  | Nat.succ fuel, m, task, msg, now =>
    let m1 := start_download m task now
    let t1 := execute_download_failure (startedTask task now) msg now
    let m2 := handle_download_completion m1 t1 (some msg)
    match popMin m2.download_queue with
    | none => (m2, 1)
    | some p =>
      let r := simulate_always_failing fuel
        { m2 with download_queue := p.2 } p.1.2 msg (now + 1)
      (r.1, r.2 + 1)

def c2task : DownloadTask :=
  { mkTask "a" "u" "t" "x" DownloadPriority.NORMAL 1 with max_retries := 2 }

def c2exhausted : DownloadTask := { c2task with retry_count := 2 }

def c3task : DownloadTask := mkTask "a" "u" "t" "x" DownloadPriority.NORMAL 1

def c3started : DownloadTask := startedTask c3task 5

def c3mgr : DownloadQueueManager :=
  { DownloadQueueManager.init 3 3 with
    active_downloads := [("a", c3started)] }

def c4task : DownloadTask := mkTask "q" "u" "t" "x" DownloadPriority.NORMAL 1

def c4mgr : DownloadQueueManager :=
  { DownloadQueueManager.init 3 3 with
    download_queue := [(priority_value c4task, c4task)] }

def c7failed : DownloadTask :=
  { mkTask "f" "u" "t" "x" DownloadPriority.NORMAL 1 with
    status := DownloadStatus.FAILED
    retry_count := 3
    error := some "boom"
    can_retry := true }

def c7pending : DownloadTask := mkTask "g" "u2" "t2" "x" DownloadPriority.NORMAL 5

def c7mgr : DownloadQueueManager :=
  { DownloadQueueManager.init 3 3 with
    download_queue := [(priority_value c7pending, c7pending)]
    failed_downloads := [("f", c7failed)] }

/-- One transition of the manager: each constructor is one locked critical
section from the source — submission (`add_download`), one dispatch-loop
iteration (lines 204-233) split into its admit and lazy-discard outcomes,
a worker completion callback (`_handle_download_completion`),
cancellation, manual retry, and — only when the `Bool` index is true — a
runtime concurrency-cap change (`update_max_concurrent_downloads`).
`completeStep` fires with whatever task object the worker closure holds:
its fields may have been mutated by `_execute_download` or
`cancel_download`, which share the Python object. -/
inductive QMStep : Bool → DownloadQueueManager → DownloadQueueManager →
    Prop where
  | submitStep (r : Bool) (m : DownloadQueueManager) (task : DownloadTask) :
      QMStep r m (add_download m task).1
  | startStep (r : Bool) (m : DownloadQueueManager) (e : QEntry)
      (q' : List QEntry) (now : Nat)
      (hcap : m.active_downloads.length < m.max_concurrent_downloads)
      (hpop : popMin m.download_queue = some (e, q'))
      (hstat : e.2.status ≠ DownloadStatus.CANCELLED) :
      QMStep r m (start_download { m with download_queue := q' } e.2 now)
  | discardStep (r : Bool) (m : DownloadQueueManager) (e : QEntry)
      (q' : List QEntry)
      (hcap : m.active_downloads.length < m.max_concurrent_downloads)
      (hpop : popMin m.download_queue = some (e, q'))
      (hstat : e.2.status = DownloadStatus.CANCELLED) :
      QMStep r m { m with download_queue := q' }
  | completeStep (r : Bool) (m : DownloadQueueManager) (task : DownloadTask)
      (exc : Option String) :
      QMStep r m (handle_download_completion m task exc)
  | cancelStep (r : Bool) (m : DownloadQueueManager) (task_id : String) :
      QMStep r m (cancel_download m task_id).1
  | retryStep (r : Bool) (m : DownloadQueueManager) (task_id : String) :
      QMStep r m (retry_download m task_id).1
  | resizeStep (m : DownloadQueueManager) (new_max : Nat) :
      QMStep true m (update_max_concurrent_downloads m new_max)

def c9task1 : DownloadTask := mkTask "a" "u" "t" "x" DownloadPriority.NORMAL 1

def c9task2 : DownloadTask := mkTask "b" "u" "t" "x" DownloadPriority.NORMAL 2

def c9m0 : DownloadQueueManager := DownloadQueueManager.init 2 3

def c9m1 : DownloadQueueManager := (add_download c9m0 c9task1).1

def c9m2 : DownloadQueueManager := (add_download c9m1 c9task2).1

def c9e1 : QEntry := (priority_value c9task1, c9task1)

def c9e2 : QEntry := (priority_value c9task2, c9task2)

def c9m3 : DownloadQueueManager :=
  start_download { c9m2 with download_queue := [c9e2] } c9e1.2 5

def c9m4 : DownloadQueueManager :=
  start_download { c9m3 with download_queue := [] } c9e2.2 6

def c9m5 : DownloadQueueManager := update_max_concurrent_downloads c9m4 1

def c5task : DownloadTask := mkTask "a" "u" "t" "x" DownloadPriority.NORMAL 1

def c5m0 : DownloadQueueManager := DownloadQueueManager.init 3 3

def c5m1 : DownloadQueueManager := (add_download c5m0 c5task).1

def c5e : QEntry := (priority_value c5task, c5task)

def c5m2 : DownloadQueueManager :=
  start_download { c5m1 with download_queue := [] } c5e.2 5

def c5done : DownloadTask := execute_download_success (startedTask c5task 5) 6 0

def c5m3 : DownloadQueueManager := handle_download_completion c5m2 c5done none

def c5task2 : DownloadTask := mkTask "a" "u" "t" "x" DownloadPriority.NORMAL 9

def c5m4 : DownloadQueueManager := (add_download c5m3 c5task2).1

theorem keyLe_iff (a b : Nat × Nat) :
    keyLe a b = true ↔ a.1 < b.1 ∨ (a.1 = b.1 ∧ a.2 ≤ b.2) := by
  simp [keyLe]

theorem keyLe_refl (a : Nat × Nat) : keyLe a a = true := by
  simp [keyLe]

theorem keyLe_trans {a b c : Nat × Nat} (hab : keyLe a b = true)
    (hbc : keyLe b c = true) : keyLe a c = true := by
  rw [keyLe_iff] at hab hbc ⊢
  omega

theorem keyLe_total (a b : Nat × Nat) : keyLe a b = true ∨ keyLe b a = true := by
  rw [keyLe_iff, keyLe_iff]
  omega

theorem popMin_none_iff (q : List QEntry) : popMin q = none ↔ q = [] := by
  cases q with
  | nil => simp [popMin]
  | cons e es =>
    simp only [popMin]
    cases h : popMin es with
    | none => simp
    | some p => cases p with
      | mk m rest => by_cases hk : keyLe e.1 m.1 <;> simp [hk]

/-- The entry returned by `popMin` is a member of the queue. -/
theorem popMin_mem {q : List QEntry} {e : QEntry} {q' : List QEntry}
    (h : popMin q = some (e, q')) : e ∈ q := by
  induction q generalizing e q' with
  | nil => simp [popMin] at h
  | cons a as ih =>
    simp only [popMin] at h
    cases hp : popMin as with
    | none =>
      rw [hp] at h
      simp at h
      simp [h.1]
    | some p =>
      obtain ⟨m, rest⟩ := p
      rw [hp] at h
      by_cases hk : keyLe a.1 m.1
      · simp [hk] at h
        simp [h.1]
      · simp [hk] at h
        have := @ih m rest hp
        rw [h.1] at this
        simp [this]

/-- `popMin` returns an entry whose key is `keyLe`-below every entry of the
queue. -/
theorem popMin_min {q : List QEntry} {e : QEntry} {q' : List QEntry}
    (h : popMin q = some (e, q')) : ∀ x ∈ q, keyLe e.1 x.1 = true := by
  induction q generalizing e q' with
  | nil => simp [popMin] at h
  | cons a as ih =>
    simp only [popMin] at h
    cases hp : popMin as with
    | none =>
      rw [hp] at h
      simp at h
      intro x hx
      rw [popMin_none_iff] at hp
      subst hp
      simp at hx
      subst hx
      rw [h.1]
      exact keyLe_refl _
    | some p =>
      obtain ⟨m, rest⟩ := p
      rw [hp] at h
      by_cases hk : keyLe a.1 m.1
      · simp [hk] at h
        intro x hx
        rw [← h.1]
        rcases List.mem_cons.mp hx with hx | hx
        · subst hx; exact keyLe_refl _
        · exact keyLe_trans hk (ih hp x hx)
      · simp [hk] at h
        intro x hx
        rw [← h.1]
        rcases List.mem_cons.mp hx with hx | hx
        · subst hx
          exact (keyLe_total _ m.1).resolve_left hk
        · exact ih hp x hx

/-- Every entry of the remainder returned by `popMin` was in the queue. -/
theorem popMin_rest_mem {q : List QEntry} {e : QEntry} {q' : List QEntry}
    (h : popMin q = some (e, q')) : ∀ x ∈ q', x ∈ q := by
  induction q generalizing e q' with
  | nil => simp [popMin] at h
  | cons a as ih =>
    simp only [popMin] at h
    cases hp : popMin as with
    | none =>
      rw [hp] at h
      simp at h
      intro x hx
      rw [h.2] at hx
      simp at hx
    | some p =>
      obtain ⟨m, rest⟩ := p
      rw [hp] at h
      by_cases hk : keyLe a.1 m.1
      · simp [hk] at h
        intro x hx
        rw [← h.2] at hx
        simp [hx]
      · simp [hk] at h
        intro x hx
        rw [← h.2] at hx
        rcases List.mem_cons.mp hx with hx | hx
        · simp [hx]
        · exact List.mem_cons_of_mem _ (ih hp x hx)

theorem popMin_length {q : List QEntry} {e : QEntry} {q' : List QEntry}
    (h : popMin q = some (e, q')) : q'.length + 1 = q.length := by
  induction q generalizing e q' with
  | nil => simp [popMin] at h
  | cons a as ih =>
    simp only [popMin] at h
    cases hp : popMin as with
    | none =>
      rw [hp] at h
      simp at h
      rw [popMin_none_iff] at hp
      subst hp
      rw [h.2]
      simp
    | some p =>
      obtain ⟨m, rest⟩ := p
      rw [hp] at h
      by_cases hk : keyLe a.1 m.1
      · simp [hk] at h
        rw [← h.2]
        simp
      · simp [hk] at h
        rw [← h.2]
        have := ih hp
        simp only [List.length_cons]
        omega

theorem drainAux_mem (n : Nat) :
    ∀ q : List QEntry, ∀ x ∈ drainAux n q, x ∈ q := by
  induction n with
  | zero => intro q x hx; simp [drainAux] at hx
  | succ n ih =>
    intro q x hx
    simp only [drainAux] at hx
    cases hp : popMin q with
    | none => rw [hp] at hx; simp at hx
    | some p =>
      obtain ⟨e, q'⟩ := p
      rw [hp] at hx
      rcases List.mem_cons.mp hx with hx | hx
      · subst hx; exact popMin_mem hp
      · exact popMin_rest_mem hp x (ih q' x hx)

theorem drainQueue_mem {q : List QEntry} {x : QEntry}
    (hx : x ∈ drainQueue q) : x ∈ q :=
  drainAux_mem q.length q x hx

theorem drainAux_pairwise (n : Nat) :
    ∀ q : List QEntry,
      (drainAux n q).Pairwise (fun a b => keyLe a.1 b.1 = true) := by
  induction n with
  | zero => intro q; simp [drainAux]
  | succ n ih =>
    intro q
    simp only [drainAux]
    cases hp : popMin q with
    | none => exact List.Pairwise.nil
    | some p =>
      obtain ⟨e, q'⟩ := p
      refine List.Pairwise.cons ?_ (ih q')
      intro x hx
      exact popMin_min hp x (popMin_rest_mem hp x (drainAux_mem n q' x hx))

/-- The drained sequence is sorted under the queue-key order: successive
pops return entries with non-decreasing keys. -/
theorem drainQueue_pairwise (q : List QEntry) :
    (drainQueue q).Pairwise (fun a b => keyLe a.1 b.1 = true) :=
  drainAux_pairwise q.length q

/-- Enum values are between 1 and 4. -/
theorem priority_value_bounds (p : DownloadPriority) :
    1 ≤ p.value ∧ p.value ≤ 4 := by
  cases p <;> simp [DownloadPriority.value]

theorem dictLookup_none_iff (d : List (String × DownloadTask)) (k : String) :
    dictLookup d k = none ↔ ∀ p ∈ d, p.1 ≠ k := by
  induction d with
  | nil => simp [dictLookup]
  | cons p ps ih =>
    by_cases h : p.1 = k <;> simp [dictLookup, h, ih]

theorem dictLookup_map_overwrite_self (k : String) (v : DownloadTask) :
    ∀ d : List (String × DownloadTask), (dictLookup d k).isSome →
      dictLookup (d.map (fun p => if p.1 = k then (k, v) else p)) k = some v := by
  intro d
  induction d with
  | nil => simp [dictLookup]
  | cons p ps ih =>
    intro hs
    by_cases hp : p.1 = k
    · simp [dictLookup, hp]
    · simp only [dictLookup, hp, if_false] at hs
      simp [dictLookup, hp, ih hs]

theorem dictLookup_append_single_self (k : String) (v : DownloadTask) :
    ∀ d : List (String × DownloadTask), dictLookup d k = none →
      dictLookup (d ++ [(k, v)]) k = some v := by
  intro d
  induction d with
  | nil => simp [dictLookup]
  | cons p ps ih =>
    intro hn
    by_cases hp : p.1 = k
    · simp [dictLookup, hp] at hn
    · simp only [dictLookup, hp, if_false] at hn
      simp [dictLookup, hp, ih hn]

theorem dictLookup_dictInsert_self (d : List (String × DownloadTask))
    (k : String) (v : DownloadTask) :
    dictLookup (dictInsert d k v) k = some v := by
  unfold dictInsert
  by_cases hs : (dictLookup d k).isSome
  · simp only [hs, if_true]
    exact dictLookup_map_overwrite_self k v d hs
  · simp only [hs, if_false]
    exact dictLookup_append_single_self k v d (Option.not_isSome_iff_eq_none.mp hs)

theorem dictLookup_map_overwrite_ne (k k' : String) (v : DownloadTask)
    (hkk : ¬(k = k')) :
    ∀ d : List (String × DownloadTask),
      dictLookup (d.map (fun p => if p.1 = k then (k, v) else p)) k' =
        dictLookup d k' := by
  intro d
  induction d with
  | nil => rfl
  | cons p ps ih =>
    have hkk2 : ¬(k' = k) := fun he => hkk he.symm
    by_cases hp : p.1 = k
    · simp [dictLookup, hp, hkk, hkk2, ih]
    · by_cases hq : p.1 = k'
      · simp [dictLookup, hp, hq, hkk2]
      · simp [dictLookup, hp, hq, ih]

theorem dictLookup_append_single_ne (k k' : String) (v : DownloadTask)
    (hkk : ¬(k = k')) :
    ∀ d : List (String × DownloadTask),
      dictLookup (d ++ [(k, v)]) k' = dictLookup d k' := by
  intro d
  induction d with
  | nil => simp [dictLookup, hkk]
  | cons p ps ih =>
    by_cases hq : p.1 = k'
    · simp [dictLookup, hq]
    · simp [dictLookup, hq, ih]

theorem dictLookup_dictInsert_ne (d : List (String × DownloadTask))
    (k k' : String) (v : DownloadTask) (h : k' ≠ k) :
    dictLookup (dictInsert d k v) k' = dictLookup d k' := by
  have hkk : ¬(k = k') := fun he => h he.symm
  unfold dictInsert
  by_cases hs : (dictLookup d k).isSome
  · simp only [hs, if_true]
    exact dictLookup_map_overwrite_ne k k' v hkk d
  · simp only [hs, if_false]
    exact dictLookup_append_single_ne k k' v hkk d

theorem dictLookup_dictRemove_self (d : List (String × DownloadTask))
    (k : String) : dictLookup (dictRemove d k) k = none := by
  unfold dictRemove
  induction d with
  | nil => simp [dictLookup]
  | cons p ps ih =>
    by_cases h : p.1 = k
    · have hb : (decide (p.1 ≠ k)) = false := by simp [h]
      simp only [List.filter, hb]
      exact ih
    · have hb : (decide (p.1 ≠ k)) = true := by simp [h]
      simp only [List.filter, hb, dictLookup, h, if_false]
      exact ih

theorem dictLookup_dictRemove_ne (d : List (String × DownloadTask))
    (k k' : String) (h : k' ≠ k) :
    dictLookup (dictRemove d k) k' = dictLookup d k' := by
  unfold dictRemove
  induction d with
  | nil => simp
  | cons p ps ih =>
    by_cases hp : p.1 = k
    · have hb : (decide (p.1 ≠ k)) = false := by simp [hp]
      have : ¬(p.1 = k') := by rw [hp]; exact fun he => h he.symm
      simp only [List.filter, hb, dictLookup, this, if_false]
      exact ih
    · have hb : (decide (p.1 ≠ k)) = true := by simp [hp]
      simp only [List.filter, hb, dictLookup]
      by_cases hq : p.1 = k'
      · simp [hq]
      · simp only [hq, if_false]
        exact ih

theorem keyLe_priority_value {a b : DownloadTask}
    (h : keyLe (priority_value a) (priority_value b) = true) :
    b.priority.value < a.priority.value ∨
      (a.priority.value = b.priority.value ∧ a.created_at ≤ b.created_at) := by
  rw [keyLe_iff] at h
  have ha := priority_value_bounds a.priority
  have hb := priority_value_bounds b.priority
  simp only [priority_value] at h
  omega

theorem drainAux_pairwise_priority (n : Nat) :
    ∀ q : List QEntry, (∀ x ∈ q, x.1 = priority_value x.2) →
      (drainAux n q).Pairwise (fun a b =>
        b.2.priority.value < a.2.priority.value ∨
          (a.2.priority.value = b.2.priority.value ∧
            a.2.created_at ≤ b.2.created_at)) := by
  induction n with
  | zero => intro q _; simp [drainAux]
  | succ n ih =>
    intro q hwf
    simp only [drainAux]
    cases hp : popMin q with
    | none => exact List.Pairwise.nil
    | some p =>
      obtain ⟨e, q'⟩ := p
      have hwf' : ∀ x ∈ q', x.1 = priority_value x.2 :=
        fun x hx => hwf x (popMin_rest_mem hp x hx)
      refine List.Pairwise.cons ?_ (ih q' hwf')
      intro x hx
      have hxq : x ∈ q := popMin_rest_mem hp x (drainAux_mem n q' x hx)
      have hke := popMin_min hp x hxq
      rw [hwf e (popMin_mem hp), hwf x hxq] at hke
      exact keyLe_priority_value hke

/-- C1: on a queue whose entries carry the key `add_download` computes
(`(5 - priority.value, created_at)`), `popMin` returns a job of
numerically highest priority, earliest `created_at` among that priority;
hence the fully drained order is descending priority with FIFO order
inside each priority class. -/
theorem pop_highest_priority_fifo (q : List QEntry)
    (hwf : ∀ x ∈ q, x.1 = priority_value x.2) :
    (∀ e q', popMin q = some (e, q') →
      ∀ x ∈ q, x.2.priority.value ≤ e.2.priority.value ∧
        (x.2.priority.value = e.2.priority.value →
          e.2.created_at ≤ x.2.created_at)) ∧
    (drainQueue q).Pairwise (fun a b =>
      b.2.priority.value < a.2.priority.value ∨
        (a.2.priority.value = b.2.priority.value ∧
          a.2.created_at ≤ b.2.created_at)) := by
  constructor
  · intro e q' hpop x hx
    have hke := popMin_min hpop x hx
    rw [hwf e (popMin_mem hpop), hwf x hx] at hke
    have hd := keyLe_priority_value hke
    omega
  · exact drainAux_pairwise_priority q.length q hwf

/-- C1 witness: the theorem applied to a concrete four-job queue. -/
theorem pop_highest_priority_fifo_witness :
    (drainQueue c1queue).Pairwise (fun a b =>
      b.2.priority.value < a.2.priority.value ∨
        (a.2.priority.value = b.2.priority.value ∧
          a.2.created_at ≤ b.2.created_at)) :=
  (pop_highest_priority_fifo c1queue (by decide)).2

/-- C6: submitting a task whose id is already present in the active
registry is a no-op: `add_download` returns early with the same id,
leaving the pending queue and every registry unchanged. -/
theorem add_download_idempotent_active (m : DownloadQueueManager)
    (task t : DownloadTask)
    (h : dictLookup m.active_downloads task.id = some t) :
    add_download m task = (m, task.id) := by
  unfold add_download
  rw [h]
  simp

/-- C6 witness: re-submitting the already-active job "a" changes nothing
and returns "a". -/
theorem add_download_idempotent_active_witness :
    add_download c6mgr c6task = (c6mgr, "a") :=
  add_download_idempotent_active c6mgr c6task (startedTask c6task 5) (by decide)

theorem dictLookup_dictUpdate_none :
    ∀ (d2 d1 : List (String × DownloadTask)) (k : String),
      dictLookup d1 k = none → dictLookup d2 k = none →
      dictLookup (dictUpdate d1 d2) k = none := by
  intro d2
  induction d2 with
  | nil =>
    intro d1 k h1 _
    simpa [dictUpdate] using h1
  | cons p ps ih =>
    intro d1 k h1 h2
    have hp : p.1 ≠ k := by
      rw [dictLookup_none_iff] at h2
      exact h2 p (by simp)
    have h2' : dictLookup ps k = none := by
      rw [dictLookup_none_iff] at h2 ⊢
      intro q hq
      exact h2 q (List.mem_cons_of_mem _ hq)
    have h1' : dictLookup (dictInsert d1 p.1 p.2) k = none := by
      rw [dictLookup_dictInsert_ne d1 p.1 k p.2 (fun he => hp he.symm)]
      exact h1
    simpa [dictUpdate] using ih (dictInsert d1 p.1 p.2) k h1' h2'

/-- C10: a job that has been submitted but not yet admitted — present only
in the pending queue — is invisible to the query API: `get_download_status`
returns none and `get_all_downloads` omits it, because both consult only
the active, completed and failed registries. -/
theorem pending_invisible_to_queries (m : DownloadQueueManager)
    (task_id : String)
    (_hpend : ∃ e ∈ m.download_queue, e.2.id = task_id)
    (ha : dictLookup m.active_downloads task_id = none)
    (hc : dictLookup m.completed_downloads task_id = none)
    (hf : dictLookup m.failed_downloads task_id = none) :
    get_download_status m task_id = none ∧
    dictLookup (get_all_downloads m) task_id = none := by
  constructor
  · unfold get_download_status
    rw [ha, hc, hf]
  · unfold get_all_downloads
    exact dictLookup_dictUpdate_none m.failed_downloads _ task_id
      (dictLookup_dictUpdate_none m.completed_downloads _ task_id
        (dictLookup_dictUpdate_none m.active_downloads [] task_id rfl ha) hc) hf

/-- C10 witness: the pending-only job "p" is invisible to both queries. -/
theorem pending_invisible_to_queries_witness :
    get_download_status c10mgr "p" = none ∧
    dictLookup (get_all_downloads c10mgr) "p" = none :=
  pending_invisible_to_queries c10mgr "p" (by decide) (by decide) (by decide)
    (by decide)

/-- C8: the resource gate returns false whenever a sampled metric exceeds
its configured threshold (the checks run in order cpu, memory, disk; disk
only when a destination path is configured), returns true when every
sampled metric is within bounds, and fails open — returns true — when a
probe raises; the constructor installs the default thresholds CPU 80,
memory 80, disk 90. -/
theorem check_system_resources_spec (m : DownloadQueueManager)
    (cpu mem : Except Unit ℚ) (disk : Option (Except Unit ℚ)) :
    (∀ c, cpu = Except.ok c → c > m.cpu_threshold →
      check_system_resources m cpu mem disk = false) ∧
    (∀ c v, cpu = Except.ok c → c ≤ m.cpu_threshold → mem = Except.ok v →
      v > m.memory_threshold →
      check_system_resources m cpu mem disk = false) ∧
    (∀ c v d, cpu = Except.ok c → c ≤ m.cpu_threshold → mem = Except.ok v →
      v ≤ m.memory_threshold → disk = some (Except.ok d) →
      d > m.disk_threshold →
      check_system_resources m cpu mem disk = false) ∧
    (∀ e, cpu = Except.error e →
      check_system_resources m cpu mem disk = true) ∧
    (∀ c e, cpu = Except.ok c → c ≤ m.cpu_threshold →
      mem = Except.error e →
      check_system_resources m cpu mem disk = true) ∧
    (∀ c v e, cpu = Except.ok c → c ≤ m.cpu_threshold → mem = Except.ok v →
      v ≤ m.memory_threshold → disk = some (Except.error e) →
      check_system_resources m cpu mem disk = true) ∧
    (∀ c v, cpu = Except.ok c → c ≤ m.cpu_threshold → mem = Except.ok v →
      v ≤ m.memory_threshold → disk = none →
      check_system_resources m cpu mem disk = true) ∧
    (∀ c v d, cpu = Except.ok c → c ≤ m.cpu_threshold → mem = Except.ok v →
      v ≤ m.memory_threshold → disk = some (Except.ok d) →
      d ≤ m.disk_threshold →
      check_system_resources m cpu mem disk = true) ∧
    ((DownloadQueueManager.init 3 3).cpu_threshold = 80 ∧
      (DownloadQueueManager.init 3 3).memory_threshold = 80 ∧
      (DownloadQueueManager.init 3 3).disk_threshold = 90) := by
  refine ⟨?_, ?_, ?_, ?_, ?_, ?_, ?_, ?_, by simp [DownloadQueueManager.init]⟩
  · intro c hc hgt
    subst hc
    simp [check_system_resources, hgt]
  · intro c v hc hle hm hgt
    subst hc; subst hm
    simp [check_system_resources, hgt, not_lt.mpr hle]
  · intro c v d hc hlec hm hlev hd hgt
    subst hc; subst hm; subst hd
    simp [check_system_resources, hgt, not_lt.mpr hlec, not_lt.mpr hlev]
  · intro e hc
    subst hc
    simp [check_system_resources]
  · intro c e hc hle hm
    subst hc; subst hm
    simp [check_system_resources, not_lt.mpr hle]
  · intro c v e hc hlec hm hlev hd
    subst hc; subst hm; subst hd
    simp [check_system_resources, not_lt.mpr hlec, not_lt.mpr hlev]
  · intro c v hc hlec hm hlev hd
    subst hc; subst hm; subst hd
    simp [check_system_resources, not_lt.mpr hlec, not_lt.mpr hlev]
  · intro c v d hc hlec hm hlev hd hled
    subst hc; subst hm; subst hd
    simp [check_system_resources, not_lt.mpr hlec, not_lt.mpr hlev,
      not_lt.mpr hled]

/-- C8 witness: CPU 95% is rejected, a raising CPU probe is admitted, and
an all-clear sample with configured disk 50% is admitted, all against the
default thresholds. -/
theorem check_system_resources_spec_witness :
    check_system_resources (DownloadQueueManager.init 3 3)
      (Except.ok 95) (Except.ok 10) none = false ∧
    check_system_resources (DownloadQueueManager.init 3 3)
      (Except.error ()) (Except.ok 10) none = true ∧
    check_system_resources (DownloadQueueManager.init 3 3)
      (Except.ok 10) (Except.ok 10) (some (Except.ok 50)) = true := by
  have h := check_system_resources_spec (DownloadQueueManager.init 3 3)
  refine ⟨(h (Except.ok 95) (Except.ok 10) none).1 95 rfl (by norm_num [DownloadQueueManager.init]), ?_, ?_⟩
  · exact (h (Except.error ()) (Except.ok 10) none).2.2.2.1 () rfl
  · exact (h (Except.ok 10) (Except.ok 10) (some (Except.ok 50))).2.2.2.2.2.2.2.1
      10 10 50 rfl (by norm_num [DownloadQueueManager.init]) rfl
      (by norm_num [DownloadQueueManager.init]) rfl
      (by norm_num [DownloadQueueManager.init])

/-- C2: on an executor failure the completion handler re-enqueues the job
only when `retry_count < max_retries`, and the re-enqueued copy carries
`retry_count + 1 ≤ max_retries`; once the budget is exhausted the job
lands in the failed registry with status FAILED and the queue is left
untouched — never requeued.  Concretely, an always-failing job with
`max_retries = 2` is executed exactly 3 times and ends in the failed
registry. -/
theorem retry_bounded_and_exhaustion (m : DownloadQueueManager)
    (task : DownloadTask) (msg : String) :
    (∀ x ∈ (handle_download_completion m task (some msg)).download_queue,
      x ∈ m.download_queue ∨
        (task.retry_count < task.max_retries ∧
          x.2.retry_count = task.retry_count + 1 ∧
          x.2.retry_count ≤ task.max_retries)) ∧
    (task.max_retries ≤ task.retry_count →
      (handle_download_completion m task (some msg)).download_queue =
        m.download_queue ∧
      dictLookup (handle_download_completion m task
          (some msg)).failed_downloads task.id =
        some { task with status := DownloadStatus.FAILED }) ∧
    ((simulate_always_failing 10 (DownloadQueueManager.init 3 2) c2task
        "boom" 0).2 = 3 ∧
      (dictLookup (simulate_always_failing 10 (DownloadQueueManager.init 3 2)
          c2task "boom" 0).1.failed_downloads "a").isSome = true) := by
  refine ⟨?_, ?_, by decide, by decide⟩
  · intro x hx
    by_cases hrc : task.retry_count < task.max_retries
    · simp only [handle_download_completion, hrc, if_true] at hx
      rcases List.mem_append.mp hx with hx | hx
      · exact Or.inl hx
      · simp at hx
        subst hx
        refine Or.inr ⟨hrc, rfl, ?_⟩
        show task.retry_count + 1 ≤ task.max_retries
        omega
    · simp only [handle_download_completion, hrc, if_false] at hx
      exact Or.inl hx
  · intro hge
    have hrc : ¬(task.retry_count < task.max_retries) := by omega
    constructor
    · simp [handle_download_completion, hrc]
    · simp [handle_download_completion, hrc, dictLookup_dictInsert_self]

/-- C2 witness: the handler applied to an exhausted job (retry_count = 2 =
max_retries) leaves the queue empty and stores the job as FAILED. -/
theorem retry_bounded_and_exhaustion_witness :
    (handle_download_completion (DownloadQueueManager.init 3 2) c2exhausted
      (some "x")).download_queue = [] ∧
    dictLookup (handle_download_completion (DownloadQueueManager.init 3 2)
        c2exhausted (some "x")).failed_downloads "a" =
      some { c2exhausted with status := DownloadStatus.FAILED } := by
  have h := (retry_bounded_and_exhaustion (DownloadQueueManager.init 3 2)
    c2exhausted "x").2.1 (by decide)
  exact ⟨h.1, h.2⟩

/-- C3 counterexample: cancelling the active job "a" does remove it from
the active registry, but `_handle_download_completion` never checks for
CANCELLED: when the background execution later finishes successfully the
cancelled job IS inserted into the completed registry, and when it fails
the job IS re-enqueued — contradicting the claim that the handler treats a
outcome of a CANCELLED job as a no-op. -/
theorem cancel_not_noop_counterexample :
    (cancel_download c3mgr "a").2 = true ∧
    dictLookup (cancel_download c3mgr "a").1.active_downloads "a" = none ∧
    (dictLookup (handle_download_completion (cancel_download c3mgr "a").1
      (cancelledTask c3started) none).completed_downloads "a").isSome = true ∧
    (handle_download_completion (cancel_download c3mgr "a").1
      (cancelledTask c3started) (some "boom")).download_queue.length = 1 := by
  decide

/-- C3 amended: `cancel_download` on an active job returns true and removes
it from the active registry, but the completion handler does not
special-case CANCELLED: when the background execution later succeeds, the
cancelled job is inserted into the completed registry (status COMPLETED);
when it fails with retry budget remaining, it is re-enqueued. -/
theorem cancel_active_then_completion (m : DownloadQueueManager)
    (task_id : String) (t : DownloadTask)
    (h : dictLookup m.active_downloads task_id = some t) :
    (cancel_download m task_id).2 = true ∧
    dictLookup (cancel_download m task_id).1.active_downloads task_id =
      none ∧
    (∀ m', dictLookup (handle_download_completion m' (cancelledTask t)
        none).completed_downloads (cancelledTask t).id =
      some { cancelledTask t with status := DownloadStatus.COMPLETED }) ∧
    (∀ m' msg, t.retry_count < t.max_retries →
      ∃ x ∈ (handle_download_completion m' (cancelledTask t)
        (some msg)).download_queue, x.2.id = t.id) := by
  refine ⟨?_, ?_, ?_, ?_⟩
  · simp [cancel_download, h]
  · simp only [cancel_download, h]
    exact dictLookup_dictRemove_self m.active_downloads task_id
  · intro m'
    simp [handle_download_completion, dictLookup_dictInsert_self]
  · intro m' msg hrc
    have hrc' : (cancelledTask t).retry_count < (cancelledTask t).max_retries := hrc
    simp only [handle_download_completion, hrc', if_true]
    exact ⟨_, List.mem_append_right _ (List.mem_singleton_self _), rfl⟩

/-- C3 witness: the amended theorem at the concrete one-active-job
manager. -/
theorem cancel_active_then_completion_witness :
    (cancel_download c3mgr "a").2 = true ∧
    dictLookup (cancel_download c3mgr "a").1.active_downloads "a" = none := by
  have h := cancel_active_then_completion c3mgr "a" c3started (by decide)
  exact ⟨h.1, h.2.1⟩

/-- C4 counterexample: job "q" sits only in the pending queue;
`cancel_download` returns false and leaves the manager — including the
status of the pending job — completely unchanged: the job is NOT marked
CANCELLED, so the lazy-deletion check of the dispatch loop can never discard
it. -/
theorem cancel_pending_counterexample :
    cancel_download c4mgr "q" = (c4mgr, false) ∧
    ∀ e ∈ (cancel_download c4mgr "q").1.download_queue,
      e.2.status = DownloadStatus.QUEUED ∧
        e.2.status ≠ DownloadStatus.CANCELLED := by
  decide

/-- C4 amended: for an id absent from the active registry — in particular
one present only in the pending queue — `cancel_download` returns false
and leaves the manager unchanged; the pending job is never marked
CANCELLED (pending-only cancellation is unimplemented, lines 497-501). -/
theorem cancel_pending_returns_false (m : DownloadQueueManager)
    (task_id : String)
    (h : dictLookup m.active_downloads task_id = none) :
    cancel_download m task_id = (m, false) := by
  unfold cancel_download
  rw [h]

/-- C4 witness: the amended theorem at the concrete pending-only
manager. -/
theorem cancel_pending_returns_false_witness :
    cancel_download c4mgr "q" = (c4mgr, false) :=
  cancel_pending_returns_false c4mgr "q" (by decide)

/-- C7 counterexample: retrying the failed job "f" (originally created at
sequence 1) re-pushes it keyed by its ORIGINAL `created_at` — not a fresh
sequence value: the entry re-enters the queue with sequence 1 and pops
BEFORE the equal-priority job "g" that was submitted later (sequence 5),
i.e. the retried job resumes its original position instead of being
ordered as a new submission. -/
theorem retry_original_sequence_counterexample :
    (retry_download c7mgr "f").2 = true ∧
    (∃ x ∈ (retry_download c7mgr "f").1.download_queue,
      x.2.id = "f" ∧ x.1.2 = 1) ∧
    (popMin (retry_download c7mgr "f").1.download_queue).map
      (fun p => p.1.2.id) = some "f" := by
  decide

/-- C7 amended: `retry_download` succeeds exactly when the id is in the
failed registry; it then resets `retry_count` to 0, clears the error,
removes the job from the failed registry and re-pushes it with its
ORIGINAL sequence value (`created_at`, line 521) — so among equal-priority
jobs it resumes its original position rather than being ordered as a new
submission — and returns true; for any other id it returns false and
changes nothing. -/
theorem retry_download_spec (m : DownloadQueueManager) (task_id : String) :
    (∀ t, dictLookup m.failed_downloads task_id = some t →
      (retry_download m task_id).2 = true ∧
      dictLookup (retry_download m task_id).1.failed_downloads task_id =
        none ∧
      (retry_download m task_id).1.download_queue =
        m.download_queue ++
          [((5 - t.priority.value, t.created_at),
            { t with
              status := DownloadStatus.QUEUED
              stage := "queued"
              message := "Retrying download..."
              progress := 0
              retry_count := 0
              error := none
              can_retry := false
              can_cancel := true })]) ∧
    (dictLookup m.failed_downloads task_id = none →
      retry_download m task_id = (m, false)) := by
  constructor
  · intro t h
    refine ⟨?_, ?_, ?_⟩
    · simp [retry_download, h]
    · simp only [retry_download, h]
      exact dictLookup_dictRemove_self m.failed_downloads task_id
    · simp [retry_download, h]
  · intro h
    unfold retry_download
    rw [h]

/-- C7 witness: the amended theorem at the concrete manager holding the
failed job "f". -/
theorem retry_download_spec_witness :
    (retry_download c7mgr "f").2 = true ∧
    dictLookup (retry_download c7mgr "f").1.failed_downloads "f" = none ∧
    retry_download c7mgr "missing" = (c7mgr, false) := by
  have h1 := (retry_download_spec c7mgr "f").1 c7failed (by decide)
  have h2 := (retry_download_spec c7mgr "missing").2 (by decide)
  exact ⟨h1.1, h1.2.1, h2⟩

theorem dictInsert_length_le (d : List (String × DownloadTask)) (k : String)
    (v : DownloadTask) : (dictInsert d k v).length ≤ d.length + 1 := by
  unfold dictInsert
  by_cases h : (dictLookup d k).isSome
  · simp [h]
  · simp [h]

theorem dictRemove_length_le (d : List (String × DownloadTask))
    (k : String) : (dictRemove d k).length ≤ d.length :=
  List.length_filter_le _ d

theorem add_download_frame (m : DownloadQueueManager) (task : DownloadTask) :
    (add_download m task).1.active_downloads = m.active_downloads ∧
    (add_download m task).1.max_concurrent_downloads =
      m.max_concurrent_downloads := by
  unfold add_download
  by_cases hs : (dictLookup m.active_downloads task.id).isSome
  · simp [hs]
  · by_cases hr : m.is_running <;> simp [hs, hr]

theorem handle_download_completion_frame (m : DownloadQueueManager)
    (task : DownloadTask) (exc : Option String) :
    (handle_download_completion m task exc).active_downloads =
      dictRemove m.active_downloads task.id ∧
    (handle_download_completion m task exc).max_concurrent_downloads =
      m.max_concurrent_downloads := by
  unfold handle_download_completion
  cases exc with
  | none => simp
  | some e => by_cases hrc : task.retry_count < task.max_retries <;> simp [hrc]

theorem cancel_download_frame (m : DownloadQueueManager) (task_id : String) :
    ((cancel_download m task_id).1.active_downloads =
        dictRemove m.active_downloads task_id ∨
      (cancel_download m task_id).1 = m) ∧
    (cancel_download m task_id).1.max_concurrent_downloads =
      m.max_concurrent_downloads := by
  unfold cancel_download
  cases h : dictLookup m.active_downloads task_id <;> simp

theorem retry_download_frame (m : DownloadQueueManager) (task_id : String) :
    (retry_download m task_id).1.active_downloads = m.active_downloads ∧
    (retry_download m task_id).1.max_concurrent_downloads =
      m.max_concurrent_downloads := by
  unfold retry_download
  cases h : dictLookup m.failed_downloads task_id <;> simp

theorem qmstep_preserves_cap {m m' : DownloadQueueManager}
    (h : QMStep false m m')
    (hinv : m.active_downloads.length ≤ m.max_concurrent_downloads) :
    m'.active_downloads.length ≤ m'.max_concurrent_downloads := by
  cases h with
  | submitStep r m task =>
    have hf := add_download_frame m task
    rw [hf.1, hf.2]
    exact hinv
  | startStep r m e q' now hcap hpop hstat =>
    unfold start_download
    have hlen := dictInsert_length_le m.active_downloads
      (startedTask e.2 now).id (startedTask e.2 now)
    simp only
    omega
  | discardStep r m e q' hcap hpop hstat =>
    exact hinv
  | completeStep r m task exc =>
    have hf := handle_download_completion_frame m task exc
    rw [hf.1, hf.2]
    have := dictRemove_length_le m.active_downloads task.id
    omega
  | cancelStep r m task_id =>
    have hf := cancel_download_frame m task_id
    rw [hf.2]
    rcases hf.1 with hc | hc
    · rw [hc]
      have := dictRemove_length_le m.active_downloads task_id
      omega
    · rw [hc]
      exact hinv
  | retryStep r m task_id =>
    have hf := retry_download_frame m task_id
    rw [hf.1, hf.2]
    exact hinv

/-- C9 amended: along every execution built from the manager operations
WITHOUT runtime cap changes, the active registry never exceeds
`max_concurrent_downloads`: the dispatch loop admits a job only when
`len(active) < cap` and no other operation inserts into the active
registry.  The qualification is forced: `update_max_concurrent_downloads`
does not evict active jobs, so lowering the cap below the current active
count violates the bound (see the counterexample). -/
theorem active_le_cap_invariant (m m' : DownloadQueueManager)
    (hreach : Relation.ReflTransGen (QMStep false) m m')
    (hinv : m.active_downloads.length ≤ m.max_concurrent_downloads) :
    m'.active_downloads.length ≤ m'.max_concurrent_downloads := by
  induction hreach with
  | refl => exact hinv
  | tail hab hbc ih => exact qmstep_preserves_cap hbc ih

/-- C9 counterexample: from a fresh manager with cap 2, submit and admit
two jobs, then lower the cap to 1 at runtime: the resulting reachable
state has 2 active jobs but cap 1 — `update_max_concurrent_downloads`
evicts nothing, so `len(active) <= cap` does NOT hold at every instant
across runtime cap changes. -/
theorem concurrency_cap_counterexample :
    Relation.ReflTransGen (QMStep true) c9m0 c9m5 ∧
    c9m5.active_downloads.length = 2 ∧
    c9m5.max_concurrent_downloads = 1 := by
  refine ⟨?_, by decide, by decide⟩
  have s1 : QMStep true c9m0 c9m1 := QMStep.submitStep true c9m0 c9task1
  have s2 : QMStep true c9m1 c9m2 := QMStep.submitStep true c9m1 c9task2
  have s3 : QMStep true c9m2 c9m3 :=
    QMStep.startStep true c9m2 c9e1 [c9e2] 5 (by decide) (by decide) (by decide)
  have s4 : QMStep true c9m3 c9m4 :=
    QMStep.startStep true c9m3 c9e2 [] 6 (by decide) (by decide) (by decide)
  have s5 : QMStep true c9m4 c9m5 := QMStep.resizeStep c9m4 1
  exact Relation.ReflTransGen.head s1 (Relation.ReflTransGen.head s2
    (Relation.ReflTransGen.head s3 (Relation.ReflTransGen.head s4
      (Relation.ReflTransGen.single s5))))

/-- C9 witness: the invariant theorem applied to the resize-free prefix of
the same trace — after admitting both jobs the bound still holds. -/
theorem active_le_cap_invariant_witness :
    c9m4.active_downloads.length ≤ c9m4.max_concurrent_downloads := by
  have s1 : QMStep false c9m0 c9m1 := QMStep.submitStep false c9m0 c9task1
  have s2 : QMStep false c9m1 c9m2 := QMStep.submitStep false c9m1 c9task2
  have s3 : QMStep false c9m2 c9m3 :=
    QMStep.startStep false c9m2 c9e1 [c9e2] 5 (by decide) (by decide)
      (by decide)
  have s4 : QMStep false c9m3 c9m4 :=
    QMStep.startStep false c9m3 c9e2 [] 6 (by decide) (by decide) (by decide)
  exact active_le_cap_invariant c9m0 c9m4
    (Relation.ReflTransGen.head s1 (Relation.ReflTransGen.head s2
      (Relation.ReflTransGen.head s3 (Relation.ReflTransGen.single s4))))
    (by decide)

/-- C5 counterexample: submit job "a", admit it, let it complete; it now
sits in the completed registry.  Submitting a task with the same id again
is accepted — `add_download` checks only the ACTIVE registry — so a
reachable state holds id "a" in the pending queue AND in the completed
registry simultaneously, violating the at-most-one-collection claim. -/
theorem duplicate_admission_counterexample :
    Relation.ReflTransGen (QMStep false) c5m0 c5m4 ∧
    (dictLookup c5m4.completed_downloads "a").isSome = true ∧
    (∃ x ∈ c5m4.download_queue, x.2.id = "a") := by
  refine ⟨?_, by decide, by decide⟩
  have s1 : QMStep false c5m0 c5m1 := QMStep.submitStep false c5m0 c5task
  have s2 : QMStep false c5m1 c5m2 :=
    QMStep.startStep false c5m1 c5e [] 5 (by decide) (by decide) (by decide)
  have s3 : QMStep false c5m2 c5m3 :=
    QMStep.completeStep false c5m2 c5done none
  have s4 : QMStep false c5m3 c5m4 := QMStep.submitStep false c5m3 c5task2
  exact Relation.ReflTransGen.head s1 (Relation.ReflTransGen.head s2
    (Relation.ReflTransGen.head s3 (Relation.ReflTransGen.single s4)))

/-- C5 amended: each move between collections is an atomic
remove-and-insert under the lock — the completion handler always removes
the finished job from the active registry before inserting it into
completed (or failed / back into the queue), `retry_download` removes from
failed as it re-enqueues, `cancel_download` removes from active — and
submission is guarded against duplicates of ACTIVE ids only: an id already
pending, completed or failed receives a second entry, so pairwise
disjointness of the four collections can be violated. -/
theorem registry_moves_atomic (m : DownloadQueueManager)
    (task t : DownloadTask) (task_id : String) (exc : Option String) :
    dictLookup (handle_download_completion m task exc).active_downloads
      task.id = none ∧
    (exc = none →
      (dictLookup (handle_download_completion m task
        exc).completed_downloads task.id).isSome = true) ∧
    (dictLookup m.failed_downloads task_id = some t →
      dictLookup (retry_download m task_id).1.failed_downloads task_id =
        none ∧
      ∃ x ∈ (retry_download m task_id).1.download_queue, x.2.id = t.id) ∧
    (dictLookup m.active_downloads task_id = some t →
      dictLookup (cancel_download m task_id).1.active_downloads task_id =
        none) ∧
    (dictLookup m.active_downloads task.id = some t →
      add_download m task = (m, task.id)) := by
  refine ⟨?_, ?_, ?_, ?_, ?_⟩
  · rw [(handle_download_completion_frame m task exc).1]
    exact dictLookup_dictRemove_self m.active_downloads task.id
  · intro he
    subst he
    simp [handle_download_completion, dictLookup_dictInsert_self]
  · intro h
    constructor
    · simp only [retry_download, h]
      exact dictLookup_dictRemove_self m.failed_downloads task_id
    · simp only [retry_download, h]
      exact ⟨_, List.mem_append_right _ (List.mem_singleton_self _), rfl⟩
  · intro h
    simp only [cancel_download, h]
    exact dictLookup_dictRemove_self m.active_downloads task_id
  · intro h
    unfold add_download
    rw [h]
    simp

/-- C5 witness: the amended theorem at the trace state `c5m2` — the
completion handler removes the finished job from the active registry in
the same step that inserts it into completed, and re-submitting the
active id "a" is refused. -/
theorem registry_moves_atomic_witness :
    dictLookup (handle_download_completion c5m2 c5done
      none).active_downloads "a" = none ∧
    add_download c5m2 c5done = (c5m2, "a") := by
  have h := registry_moves_atomic c5m2 c5done (startedTask c5task 5) "a" none
  exact ⟨h.1, h.2.2.2.2 (by decide)⟩

end CamelotQueue
